import Mathlib

/-!
# terraform-provider-infoblox: host and IP resources

A shallow embedding of `resource_infoblox_host.go` and `resource_infoblox_ip.go`.

* The Infoblox client (package `go-infoblox`) is an external collaborator: it is a
  record of functions over an arbitrary backend state `σ`; every operation returns the
  Go pair `(value, error)` together with the next backend state.
* Every client operation the code performs is appended to a call log, so that
  statements such as "no backend call is made" can be expressed.
* `encoding/json` is external as well: `Marshal` and `Unmarshal` are taken as given.
* A Go `error` is modelled by the text of its `Error()` method (`none` is `nil`).
* A failed type assertion or an out-of-range index ends the call with a run-time
  panic; this is the `panicked` outcome.
-/

set_option autoImplicit false

namespace Infoblox

/-! ## Go values -/

/-- Go `error`: `none` is `nil`, `some msg` is a non-nil error whose text is `msg`. -/
abbrev Error := Option String

/-- How a Go call ends: it returns a value, or a run-time panic unwinds it. -/
inductive Outcome (α : Type) where
  | returned (a : α)
  | panicked
  deriving DecidableEq, Repr

namespace fmt

/-- The text the verb `%s` produces for an `error` operand: the error text, and the
marker `%!s(<nil>)` when the operand is `nil`. -/
def verb_s : Error → String
  | some msg => msg
  | none => "%!s(<nil>)"

end fmt

namespace strings

/-- Pieces of a character list cut at every occurrence of `sep`. The result always has
at least one piece. -/
def splitChars (sep : Char) : List Char → List (List Char)
  | [] => [[]]
  | c :: cs =>
    if c = sep then [] :: splitChars sep cs
    else
      match splitChars sep cs with
      | [] => [[c]]
      | p :: ps => (c :: p) :: ps

/-- Concatenation of the pieces with `sep` between neighbours. -/
def joinChars (sep : List Char) : List (List Char) → List Char
  | [] => []
  | [p] => p
  | p :: q :: ps => p ++ sep ++ joinChars sep (q :: ps)

/-- Go `strings.Split(s, sep)` for a separator of one character, the way the source calls
it (`strings.Split(rec.Name, ".")`). -/
def Split (s : String) (sep : Char) : List String :=
  (splitChars sep s.data).map String.mk

/-- Go `strings.Join(elems, sep)`. -/
def Join (elems : List String) (sep : String) : String :=
  String.mk (joinChars sep.data (elems.map String.data))

end strings

/-! ## The external collaborators -/

/-- Go `url.Values` as the source uses it: `Set` replaces the entry of a key, `Get` reads
it and yields the empty string for an absent key. -/
structure Values where
  entries : List (String × String)
  deriving DecidableEq, Repr

namespace Values

/-- Go `url.Values{}`. -/
def empty : Values := ⟨[]⟩

/-- Go `v.Set(key, value)`. -/
def Set (v : Values) (key value : String) : Values :=
  ⟨v.entries.filter (fun e => e.1 ≠ key) ++ [(key, value)]⟩

/-- Go `v.Get(key)`. -/
def Get (v : Values) (key : String) : String :=
  match v.entries.find? (fun e => e.1 = key) with
  | some e => e.2
  | none => ""

end Values

/-- One element of the result of `client.Network().Find`, a `map[string]interface{}`.
The code reads only `out[0]["_ref"].(string)`: `ref` is that string, and `none` when the
key is absent or does not hold a string, in which case the type assertion panics. -/
structure NetworkObject where
  ref : Option String
  deriving DecidableEq, Repr

/-- The fields of `infoblox.RecordAObject` that the code reads. -/
structure RecordAObject where
  Ipv4Addr : String
  Name : String
  Ttl : Int
  deriving DecidableEq, Repr

/-- The type `InfobloxIPResponse` (resource_infoblox_ip.go, line 14). -/
structure InfobloxIPResponse where
  IPAddresses : List String
  deriving DecidableEq, Repr

/-- The operations of `*infoblox.Client` that the two resources call. `σ` is the state
of the backend, `ρ` the loosely typed response of `NextAvailableIP`. Each operation
returns the Go pair (value, error) and the next backend state. -/
structure Client (σ ρ : Type) where
  /-- Go `client.Network().Find(query, nil)` with the single condition `network = cidr`. -/
  NetworkFind : String → σ → (List NetworkObject × Error) × σ
  /-- Go `client.NetworkObject(ref).NextAvailableIP(num, exclude)`. -/
  NextAvailableIP : String → Int → List String → σ → (ρ × Error) × σ
  /-- Go `client.RecordA().Create(record, opts, nil)`; the list is `opts.ReturnFields`. -/
  RecordACreate : Values → List String → σ → (String × Error) × σ
  /-- Go `client.GetRecordA(ref, nil)`. -/
  GetRecordA : String → σ → (RecordAObject × Error) × σ
  /-- Go `client.RecordAObject(ref).Update(record, opts, nil)`. -/
  RecordAUpdate : String → Values → List String → σ → (String × Error) × σ
  /-- Go `client.RecordAObject(ref).Delete(nil)`. -/
  RecordADelete : String → σ → Error × σ

/-- The two calls into `encoding/json`: `json.Marshal(v)` returns the bytes and an error,
`json.Unmarshal(data, &res)` leaves a value in `res` and returns an error. -/
structure Json (ρ : Type) where
  Marshal : ρ → String × Error
  Unmarshal : String → InfobloxIPResponse × Error

/-- A call made to the backend through the client. -/
inductive Call where
  | NetworkFind (cidr : String)
  | NextAvailableIP (ref : String) (num : Int) (exclude : List String)
  | RecordACreate (record : Values) (returnFields : List String)
  | GetRecordA (ref : String)
  | RecordAUpdate (ref : String) (record : Values) (returnFields : List String)
  | RecordADelete (ref : String)
  deriving DecidableEq, Repr

/-- The backend state together with the log of the calls made so far. -/
structure World (σ : Type) where
  backend : σ
  calls : List Call

namespace World

variable {σ : Type}

/-- The world once call `c` has been made and has left the backend in state `b`. -/
def after (w : World σ) (c : Call) (b : σ) : World σ :=
  ⟨b, w.calls ++ [c]⟩

end World

/-! ## Resource data -/

/-- The `*schema.ResourceData` of the host resource: its identity and the attributes of
the schema at resource_infoblox_host.go, lines 21-57. `exclude` is the listing
`d.Get("exclude").(*schema.Set).List()`. -/
structure HostData where
  id : String
  domain : String
  name : String
  ttl : String
  cidr : String
  address : List String
  exclude : List String
  deriving DecidableEq, Repr

/-- The `*schema.ResourceData` of the IP resource (resource_infoblox_ip.go, lines
25-50). `addresses` holds the list last handed to `d.Set("addresses", ·)`. -/
structure IPData where
  id : String
  cidr : String
  addresses : List String
  exclude : List String
  ip_count : Int
  deriving DecidableEq, Repr

/-- What the schema layer stores in the string-typed attribute `ttl` when `d.Set` is
handed the `int` TTL of the record (line 132), a call whose error the source ignores.
The function takes the value handed over and the current value of the attribute and
gives the new one. -/
structure FieldWriter where
  ttl : Int → String → String

/-- A value handed to `d.Set` for a set-typed attribute: a Go `string` or a slice of
strings. -/
inductive SetValue where
  | string (s : String)
  | slice (l : List String)
  deriving DecidableEq, Repr

namespace HostData

/-- Go `d.SetId(v)`. -/
def SetId (d : HostData) (v : String) : HostData := { d with id := v }

/-- Go `d.GetOk("ttl")`: the value, and whether it is set to a non-zero value. -/
def GetOkTtl (d : HostData) : String × Bool := (d.ttl, d.ttl ≠ "")

/-- Go `d.Set("address", value)`. The attribute `address` is a `TypeSet` (lines 45-50).
The schema writer turns a slice into a set; on any other value that is not a
`*schema.Set` its type assertion `value.(*Set)` fails, which is a run-time panic and
not an error result. -/
def SetAddress (d : HostData) : SetValue → Outcome (HostData × Error)
  | .slice l => .returned ({ d with address := l }, none)
  | .string _ => .panicked

end HostData

namespace IPData

/-- Go `d.SetId(v)`. -/
def SetId (d : IPData) (v : String) : IPData := { d with id := v }

/-- Go `d.Set("addresses", v)` for a `[]string`: a list of strings is always accepted by
a set of strings, so the error is `nil`. -/
def SetAddresses (d : IPData) (v : List String) : IPData × Error :=
  ({ d with addresses := v }, none)

end IPData

/-- The type of a resource operation `func(d *schema.ResourceData, meta interface{}) error`:
from the resource data and the world to the outcome, the resource data and the world
afterwards. -/
abbrev Operation (σ δ : Type) := δ → World σ → Outcome Error × δ × World σ

/-! ## resource_infoblox_host.go -/

section Host

variable {σ ρ : Type}

/-- The function `findIP` (lines 197-247). The result is the Go pair (address, error). The third
test of `err` at line 237 follows a test of the same value and cannot fire. -/
def findIP (client : Client σ ρ) (json : Json ρ) (cidr : String)
    (excludedAddresses : List String) (w : World σ) : Outcome (String × Error) × World σ :=
  match client.NetworkFind cidr w.backend with
  | ((results, err), b) =>
    let w := w.after (.NetworkFind cidr) b
    match err with
    | some e => (.returned ("", some e), w)
    | none =>
      match results with
      | [] =>
        (.returned ("", some ("Empty response from client.Network().find. Is " ++ cidr ++
          " a valid network?")), w)
      | n :: _ =>
        match n.ref with
        | none => (.panicked, w)
        | some ref =>
          match client.NextAvailableIP ref 1 excludedAddresses w.backend with
          | ((netIP, err), b) =>
            let w := w.after (.NextAvailableIP ref 1 excludedAddresses) b
            match err with
            | some e => (.returned ("", some e), w)
            | none =>
              match json.Marshal netIP with
              | (data, err) =>
                match err with
                | some e => (.returned ("", some e), w)
                | none =>
                  match json.Unmarshal data with
                  | (ipInfo, err) =>
                    match err with
                    | some e => (.returned ("", some e), w)
                    | none =>
                      if ipInfo.IPAddresses.length ≠ 1 then
                        (.returned ("", some "Error: unable to get an IP address"), w)
                      else
                        match ipInfo.IPAddresses with
                        | ip :: _ => (.returned (ip, none), w)
                        | [] => (.panicked, w)

/-- The payload Host Create submits (lines 93-99). -/
def hostCreateRecord (d : HostData) (ipAddress : String) : Values :=
  let record := Values.empty
  let record := record.Set "name" (strings.Join [d.name, d.domain] ".")
  let record := if d.GetOkTtl.2 then record.Set "ttl" d.GetOkTtl.1 else record
  record.Set "ipv4addr" ipAddress

/-- The function `resourceInfobloxHostCreate` (lines 61-119). The function it ends with,
`resourceInfobloxRecordRead`, is defined in a file of the repository that is not among
the sources at hand and is a parameter here. -/
def resourceInfobloxHostCreate (client : Client σ ρ) (json : Json ρ)
    (resourceInfobloxRecordRead : Operation σ HostData) : Operation σ HostData :=
  fun d w =>
  let excludedAddresses := d.exclude
  let cidr := d.cidr
  if cidr = "" then (.returned (some "Invalid cidr block"), d, w) else
  let name := d.name
  if name = "" then (.returned (some "Invalid name"), d, w) else
  let domain := d.domain
  if domain = "" then (.returned (some "Invalid domain"), d, w) else
  match findIP client json cidr excludedAddresses w with
  | (.panicked, w) => (.panicked, d, w)
  | (.returned (_, some e), w) => (.returned (some e), d, w)
  | (.returned (ipAddress, none), w) =>
    let record := hostCreateRecord d ipAddress
    match client.RecordACreate record ["ttl", "ipv4addr", "name"] w.backend with
    | ((recID, err), b) =>
      let w := w.after (.RecordACreate record ["ttl", "ipv4addr", "name"]) b
      match err with
      | some _ => (.returned (some ("Failed to create Infblox Record: " ++ fmt.verb_s err)), d, w)
      | none => resourceInfobloxRecordRead (d.SetId recID) w

/-- Lines 129-131 of `resourceInfobloxHostRead`: the name of the record is split on
".", the first label is written to `name` and the other labels, joined with ".", to
`domain`. The index `fqdn[0]` panics on an empty slice. -/
def hostReadNameDomain (rec : RecordAObject) (d : HostData) : Outcome HostData :=
  let fqdn := strings.Split rec.Name '.'
  match fqdn with
  | [] => .panicked
  | fqdn0 :: fqdn1 =>
    let d := { d with name := fqdn0 }
    let d := { d with domain := strings.Join fqdn1 "." }
    .returned d

/-- The function `resourceInfobloxHostRead` (lines 121-135). Line 128 hands the string
`rec.Ipv4Addr` to `d.Set` for the set-typed attribute `address`; the error results of
the four calls of `d.Set` are ignored. -/
def resourceInfobloxHostRead (client : Client σ ρ) (fw : FieldWriter) : Operation σ HostData :=
  fun d w =>
  match client.GetRecordA d.id w.backend with
  | ((rec, err), b) =>
    let w := w.after (.GetRecordA d.id) b
    match err with
    | some _ => (.returned (some ("Couldn't find Infoblox A record: " ++ fmt.verb_s err)), d, w)
    | none =>
      match d.SetAddress (.string rec.Ipv4Addr) with
      | .panicked => (.panicked, d, w)
      | .returned (d, _) =>
        match hostReadNameDomain rec d with
        | .panicked => (.panicked, d, w)
        | .returned d =>
          let d := { d with ttl := fw.ttl rec.Ttl d.ttl }
          (.returned none, d, w)

/-- The payload Host Update submits (lines 158-162). -/
def hostUpdateRecord (d : HostData) : Values :=
  let record := Values.empty
  let record := record.Set "name" (strings.Join [d.name, d.domain] ".")
  if d.GetOkTtl.2 then record.Set "ttl" d.GetOkTtl.1 else record

/-- The function `resourceInfobloxHostUpdate` (lines 137-178). Line 172 formats `err`,
the variable that holds the result of `GetRecordA`, and not `updateErr`. -/
def resourceInfobloxHostUpdate (client : Client σ ρ)
    (resourceInfobloxRecordRead : Operation σ HostData) : Operation σ HostData :=
  fun d w =>
  let name := d.name
  if name = "" then (.returned (some "Invalid name"), d, w) else
  let domain := d.domain
  if domain = "" then (.returned (some "Invalid domain"), d, w) else
  match client.GetRecordA d.id w.backend with
  | ((_, err), b) =>
    let w := w.after (.GetRecordA d.id) b
    match err with
    | some _ => (.returned (some ("Couldn't find Infoblox record: " ++ fmt.verb_s err)), d, w)
    | none =>
      let record := hostUpdateRecord d
      match client.RecordAUpdate d.id record ["ttl", "ipv4addr", "name"] w.backend with
      | ((recID, updateErr), b) =>
        let w := w.after (.RecordAUpdate d.id record ["ttl", "ipv4addr", "name"]) b
        match updateErr with
        | some _ =>
          (.returned (some ("Failed to update Infblox Record: " ++ fmt.verb_s err)), d, w)
        | none => resourceInfobloxRecordRead (d.SetId recID) w

/-- The function `resourceInfobloxHostDelete` (lines 180-195). Line 192 formats `err`,
the variable that holds the result of `GetRecordA`, and not `deleteErr`. -/
def resourceInfobloxHostDelete (client : Client σ ρ) : Operation σ HostData :=
  fun d w =>
  match client.GetRecordA d.id w.backend with
  | ((_, err), b) =>
    let w := w.after (.GetRecordA d.id) b
    match err with
    | some _ => (.returned (some ("Couldn't find Infoblox A record: " ++ fmt.verb_s err)), d, w)
    | none =>
      match client.RecordADelete d.id w.backend with
      | (deleteErr, b) =>
        let w := w.after (.RecordADelete d.id) b
        match deleteErr with
        | some _ =>
          (.returned (some ("Error deleting Infoblox A Record: " ++ fmt.verb_s err)), d, w)
        | none => (.returned none, d, w)

end Host

/-! ## resource_infoblox_ip.go -/

section IP

variable {σ ρ : Type}

/-- The function `resourceInfobloxIPCreate` (lines 54-141). The test of `err` at line
120 follows a test of the same value and cannot fire. -/
def resourceInfobloxIPCreate (client : Client σ ρ) (json : Json ρ) : Operation σ IPData :=
  fun d w =>
  let ntwork := d.cidr
  match client.NetworkFind ntwork w.backend with
  | ((out, err), b) =>
    let w := w.after (.NetworkFind ntwork) b
    match err with
    | some e => (.returned (some e), d, w)
    | none =>
      match out with
      | [] =>
        (.returned (some ("Empty response from client.Network().find. Is " ++ ntwork ++
          " a valid network?")), d, w)
      | n :: _ =>
        let excludedAddresses := d.exclude
        let ipCount := d.ip_count
        match n.ref with
        | none => (.panicked, d, w)
        | some ref =>
          match client.NextAvailableIP ref ipCount excludedAddresses w.backend with
          | ((ou, err), b) =>
            let w := w.after (.NextAvailableIP ref ipCount excludedAddresses) b
            match err with
            | some e => (.returned (some e), d, w)
            | none =>
              match json.Marshal ou with
              | (data, err) =>
                match err with
                | some e => (.returned (some e), d, w)
                | none =>
                  match json.Unmarshal data with
                  | (res, err) =>
                    match err with
                    | some e => (.returned (some e), d, w)
                    | none =>
                      let d := d.SetId (strings.Join res.IPAddresses " ")
                      match d.SetAddresses res.IPAddresses with
                      | (d, err) =>
                        match err with
                        | some e => (.returned (some e), d, w)
                        | none => (.returned none, d, w)

/-- The function `resourceInfobloxIPRead` (lines 143-150): the body is `return nil`. -/
def resourceInfobloxIPRead (_client : Client σ ρ) : Operation σ IPData :=
  fun d w => (.returned none, d, w)

/-- The function `resourceInfobloxIPUpdate` (lines 152-159): the body is `return nil`. -/
def resourceInfobloxIPUpdate (_client : Client σ ρ) : Operation σ IPData :=
  fun d w => (.returned none, d, w)

/-- The function `resourceInfobloxIPDelete` (lines 161-168): the body is `return nil`. -/
def resourceInfobloxIPDelete (_client : Client σ ρ) : Operation σ IPData :=
  fun d w => (.returned none, d, w)

end IP

/-! ## A stub backend

An in-memory backend used to run the operations on concrete inputs. -/

namespace Stub

/-- The stored A records, by reference. -/
abbrev State := List (String × RecordAObject)

/-- The addresses of the stub network, in the order in which they are handed out. -/
def pool : List String := ["10.0.0.5", "10.0.0.6", "10.0.0.7", "10.0.0.8"]

/-- The record stored under `ref`. -/
def lookup (ref : String) : State → Option RecordAObject
  | [] => none
  | (k, r) :: rest => if k = ref then some r else lookup ref rest

/-- A well-behaved client: every CIDR names a network, allocation hands out the first
`num` addresses of the pool that are not excluded, records are stored under the
reference `record:a/` followed by their name. -/
def client : Client State (List String) where
  NetworkFind cidr s := (([⟨some ("network/" ++ cidr)⟩], none), s)
  NextAvailableIP _ num exclude s :=
    (((pool.filter (fun a => a ∉ exclude)).take num.toNat, none), s)
  RecordACreate record _ s :=
    (("record:a/" ++ record.Get "name", none),
      s ++ [("record:a/" ++ record.Get "name",
        ⟨record.Get "ipv4addr", record.Get "name", 3600⟩)])
  GetRecordA ref s :=
    match lookup ref s with
    | some r => ((r, none), s)
    | none => ((⟨"", "", 0⟩, some "not found"), s)
  RecordAUpdate ref record _ s :=
    match lookup ref s with
    | some r =>
      ((ref, none),
        s.map (fun e => if e.1 = ref then (ref, { r with Name := record.Get "name" }) else e))
    | none => (("", some "not found"), s)
  RecordADelete ref s := (none, s.filter (fun e => e.1 ≠ ref))

/-- The stub client with a backend that accepts a new record and returns its
reference, but does not find it afterwards. -/
def clientLosesRecord : Client State (List String) :=
  { client with
    RecordACreate := fun record _ s => (("record:a/" ++ record.Get "name", none), s) }

/-- The stub client with a backend that renames a record under a new reference and
does not find the new reference afterwards. -/
def clientLosesUpdate : Client State (List String) :=
  { client with RecordAUpdate := fun ref _ _ s => ((ref ++ "/v2", none), s) }

/-- The stub client with a backend on which every update fails with "boom". -/
def clientUpdateFails : Client State (List String) :=
  { client with RecordAUpdate := fun _ _ _ s => (("", some "boom"), s) }

/-- The stub client with a backend on which every delete fails with "boom". -/
def clientDeleteFails : Client State (List String) :=
  { client with RecordADelete := fun _ s => (some "boom", s) }

/-- The stub client with a network that has a single free address left, whatever
number is asked for. -/
def clientOneLeft : Client State (List String) :=
  { client with NextAvailableIP := fun _ _ _ s => ((["10.0.0.6"], none), s) }

/-- A stub codec: the response is the list of addresses, written with commas. -/
def json : Json (List String) where
  Marshal l := (strings.Join l ",", none)
  Unmarshal data := (⟨if data = "" then [] else strings.Split data ','⟩, none)

/-- A schema layer that leaves `ttl` as it is when handed an `int`. -/
def fieldWriter : FieldWriter where
  ttl _ old := old

/-- Modelled from the spec: `resourceInfobloxRecordRead`, the function Host Create and
Host Update end with, whose file is not among the sources. Section 4.2 of the spec says
that they "perform a full Read", and describes Read as: fetch the record by ID, not
found is an error; split the fully-qualified name on ".", first label to `name`,
remaining labels rejoined with "." to `domain`; populate address and TTL verbatim from
the backend. The text of the not-found error is that of line 126. -/
def resourceInfobloxRecordRead (c : Client State (List String)) : Operation State HostData :=
  fun d w =>
  match c.GetRecordA d.id w.backend with
  | ((rec, err), b) =>
    let w := w.after (.GetRecordA d.id) b
    match err with
    | some e => (.returned (some ("Couldn't find Infoblox A record: " ++ e)), d, w)
    | none =>
      match strings.Split rec.Name '.' with
      | [] => (.panicked, d, w)
      | label :: labels =>
        (.returned none,
          { d with
            address := [rec.Ipv4Addr], name := label, domain := strings.Join labels ".",
            ttl := toString rec.Ttl }, w)

/-- A declared host: web1.example.com in 10.0.0.0/24, 10.0.0.5 excluded. -/
def web1 : HostData :=
  { id := "", domain := "example.com", name := "web1", ttl := "3600",
    cidr := "10.0.0.0/24", address := [], exclude := ["10.0.0.5"] }

/-- The host `web1` once created on the stub backend. -/
def web1Created : HostData :=
  { web1 with id := "record:a/web1.example.com", address := ["10.0.0.6"] }

/-- The resource data of `web1` with a name and a domain that are out of date. -/
def web1Stale : HostData :=
  { web1Created with name := "stale", domain := "stale.test" }

/-- The stub backend holding the record of `web1`. -/
def web1Stored : World State :=
  ⟨[("record:a/web1.example.com", ⟨"10.0.0.6", "web1.example.com", 3600⟩)], []⟩

/-- A declared allocation of two addresses in 10.0.0.0/24, 10.0.0.5 excluded. -/
def twoAddresses : IPData :=
  { id := "", cidr := "10.0.0.0/24", addresses := [], exclude := ["10.0.0.5"], ip_count := 2 }

/-- The empty backend, before any call. -/
def fresh : World State := ⟨[], []⟩

end Stub

/-! ## Splitting and joining -/

namespace strings

theorem splitChars_ne_nil (sep : Char) (l : List Char) : splitChars sep l ≠ [] := by
  cases l with
  | nil => simp [splitChars]
  | cons c cs =>
    unfold splitChars
    split
    · simp
    · split <;> simp

theorem splitChars_append_sep (sep : Char) (p rest : List Char) (hp : sep ∉ p) :
    splitChars sep (p ++ sep :: rest) = p :: splitChars sep rest := by
  induction p with
  | nil => simp [splitChars]
  | cons c cs ih =>
    have hc : c ≠ sep := fun h => hp (by simp [h])
    have hcs : sep ∉ cs := fun h => hp (by simp [h])
    simp [splitChars, hc, ih hcs]

theorem joinChars_cons_cons (sep : List Char) (c : Char) (p : List Char)
    (ps : List (List Char)) :
    joinChars sep ((c :: p) :: ps) = c :: joinChars sep (p :: ps) := by
  cases ps <;> simp [joinChars]

theorem joinChars_splitChars (sep : Char) (l : List Char) :
    joinChars [sep] (splitChars sep l) = l := by
  induction l with
  | nil => simp [splitChars, joinChars]
  | cons c cs ih =>
    unfold splitChars
    split
    · next h =>
      cases hs : splitChars sep cs with
      | nil => exact absurd hs (splitChars_ne_nil sep cs)
      | cons q qs =>
        rw [hs] at ih
        simp [joinChars, ih, h]
    · split
      · next hs => exact absurd hs (splitChars_ne_nil sep cs)
      · next q qs hs =>
        rw [hs] at ih
        rw [joinChars_cons_cons, ih]

theorem Join_map_mk (pieces : List (List Char)) (sep : String) :
    Join (pieces.map String.mk) sep = String.mk (joinChars sep.data pieces) := by
  simp [Join, Function.comp_def]

theorem Join_Split (s : String) : Join (Split s '.') "." = s := by
  rw [Split, Join_map_mk]
  show String.mk (joinChars ['.'] (splitChars '.' s.data)) = s
  rw [joinChars_splitChars]

theorem Split_Join_pair (name domain : String) (hname : '.' ∉ name.data) :
    Split (Join [name, domain] ".") '.' = name :: Split domain '.' := by
  have h : (Join [name, domain] ".").data = name.data ++ '.' :: domain.data := by
    simp [Join, joinChars]
  rw [Split, h, splitChars_append_sep '.' _ _ hname]
  simp [Split]

end strings

/-! ## Properties -/

section

variable {σ ρ : Type}

/-- The result of `findIP` once the network lookup has found a network with a
reference, the allocation call has succeeded and the response has been decoded. -/
theorem findIP_of_normalized (client : Client σ ρ) (json : Json ρ) (cidr : String)
    (excludedAddresses : List String) (w : World σ) (n : NetworkObject)
    (rest : List NetworkObject) (ref : String) (b1 b2 : σ) (netIP : ρ) (data : String)
    (L : List String)
    (hfind : client.NetworkFind cidr w.backend = ((n :: rest, none), b1))
    (href : n.ref = some ref)
    (hnext : client.NextAvailableIP ref 1 excludedAddresses b1 = ((netIP, none), b2))
    (hmarshal : json.Marshal netIP = (data, none))
    (hunmarshal : json.Unmarshal data = (⟨L⟩, none)) :
    (findIP client json cidr excludedAddresses w).1 =
      if L.length ≠ 1 then .returned ("", some "Error: unable to get an IP address")
      else match L with
        | ip :: _ => .returned (ip, none)
        | [] => .panicked := by
  simp only [findIP, hfind, href, World.after, hnext, hmarshal, hunmarshal]
  split
  · rfl
  · split <;> rfl

end


/-- C1: when the network lookup returns at least one network and the next-available
call succeeds with a response that normalizes to the list L, findIP succeeds exactly
when L has one element and then returns L[0]; otherwise it fails with the error
"Error: unable to get an IP address". -/
theorem findIP_exactly_one {σ ρ : Type} (client : Client σ ρ) (json : Json ρ) (cidr : String)
    (excludedAddresses : List String) (w : World σ) (n : NetworkObject)
    (rest : List NetworkObject) (ref : String) (b1 b2 : σ) (netIP : ρ) (data : String)
    (L : List String)
    (hfind : client.NetworkFind cidr w.backend = ((n :: rest, none), b1))
    (href : n.ref = some ref)
    (hnext : client.NextAvailableIP ref 1 excludedAddresses b1 = ((netIP, none), b2))
    (hmarshal : json.Marshal netIP = (data, none))
    (hunmarshal : json.Unmarshal data = (⟨L⟩, none)) :
    ((∃ ip, (findIP client json cidr excludedAddresses w).1 = .returned (ip, none)) ↔
        L.length = 1) ∧
    (∀ h : 0 < L.length, L.length = 1 →
        (findIP client json cidr excludedAddresses w).1 = .returned (L.get ⟨0, h⟩, none)) ∧
    (L.length ≠ 1 →
        (findIP client json cidr excludedAddresses w).1 =
          .returned ("", some "Error: unable to get an IP address")) := by
  have key := findIP_of_normalized client json cidr excludedAddresses w n rest ref b1 b2
    netIP data L hfind href hnext hmarshal hunmarshal
  rw [key]
  match L with
  | [] => simp
  | [ip] => simp
  | _ :: _ :: _ => simp

/-- Witness of C1 on the stub backend, where the allocation yields one address. -/
theorem findIP_exactly_one_witness :
    ((∃ ip, (findIP Stub.client Stub.json "10.0.0.0/24" ["10.0.0.5"] Stub.fresh).1 =
        .returned (ip, none)) ↔ ["10.0.0.6"].length = 1) ∧
    (∀ h : 0 < ["10.0.0.6"].length, ["10.0.0.6"].length = 1 →
        (findIP Stub.client Stub.json "10.0.0.0/24" ["10.0.0.5"] Stub.fresh).1 =
          .returned (["10.0.0.6"].get ⟨0, h⟩, none)) ∧
    (["10.0.0.6"].length ≠ 1 →
        (findIP Stub.client Stub.json "10.0.0.0/24" ["10.0.0.5"] Stub.fresh).1 =
          .returned ("", some "Error: unable to get an IP address")) :=
  findIP_exactly_one Stub.client Stub.json "10.0.0.0/24" ["10.0.0.5"] Stub.fresh
    ⟨some "network/10.0.0.0/24"⟩ [] "network/10.0.0.0/24" [] [] ["10.0.0.6"] "10.0.0.6"
    ["10.0.0.6"] (by decide) (by decide) (by decide) (by decide) (by decide)

/-- C5: when cidr, name or domain is empty, Host Create returns an error and leaves
the resource data, the backend and the call log as they were (no backend call, no
identity assigned); an empty cidr gives "Invalid cidr block" whatever name and domain
are. -/
theorem hostCreate_rejects_empty {σ ρ : Type} (client : Client σ ρ) (json : Json ρ)
    (recordRead : Operation σ HostData) (d : HostData) (w : World σ)
    (hempty : d.cidr = "" ∨ d.name = "" ∨ d.domain = "") :
    (∃ msg, resourceInfobloxHostCreate client json recordRead d w =
        (.returned (some msg), d, w)) ∧
    (d.cidr = "" → resourceInfobloxHostCreate client json recordRead d w =
        (.returned (some "Invalid cidr block"), d, w)) := by
  unfold resourceInfobloxHostCreate
  by_cases hc : d.cidr = ""
  · simp [hc]
  · by_cases hn : d.name = ""
    · simp [hc, hn]
    · have hd : d.domain = "" := by
        rcases hempty with h | h | h
        · exact absurd h hc
        · exact absurd h hn
        · exact h
      simp [hc, hn, hd]

/-- Witness of C5: the host `web1` declared with an empty cidr. -/
theorem hostCreate_rejects_empty_witness :
    (∃ msg, resourceInfobloxHostCreate Stub.client Stub.json
        (Stub.resourceInfobloxRecordRead Stub.client) { Stub.web1 with cidr := "" } Stub.fresh =
        (.returned (some msg), { Stub.web1 with cidr := "" }, Stub.fresh)) ∧
    (({ Stub.web1 with cidr := "" } : HostData).cidr = "" →
      resourceInfobloxHostCreate Stub.client Stub.json
        (Stub.resourceInfobloxRecordRead Stub.client) { Stub.web1 with cidr := "" } Stub.fresh =
        (.returned (some "Invalid cidr block"), { Stub.web1 with cidr := "" }, Stub.fresh)) :=
  hostCreate_rejects_empty Stub.client Stub.json (Stub.resourceInfobloxRecordRead Stub.client)
    { Stub.web1 with cidr := "" } Stub.fresh (Or.inl rfl)

/-- C9: when the get-record-by-ID call fails, Host Delete returns an error, and the
only call it has made is that lookup: no delete call is issued. -/
theorem hostDelete_not_found {σ ρ : Type} (client : Client σ ρ) (d : HostData) (w : World σ)
    (rec : RecordAObject) (e : String) (b : σ)
    (hget : client.GetRecordA d.id w.backend = ((rec, some e), b)) :
    resourceInfobloxHostDelete client d w =
        (.returned (some ("Couldn't find Infoblox A record: " ++ e)), d,
          ⟨b, w.calls ++ [Call.GetRecordA d.id]⟩) ∧
    ∀ ref, Call.RecordADelete ref ∉
      (resourceInfobloxHostDelete client d w).2.2.calls.drop w.calls.length := by
  have h : resourceInfobloxHostDelete client d w =
      (.returned (some ("Couldn't find Infoblox A record: " ++ e)), d,
        ⟨b, w.calls ++ [Call.GetRecordA d.id]⟩) := by
    simp [resourceInfobloxHostDelete, hget, World.after, fmt.verb_s]
  refine ⟨h, ?_⟩
  intro ref
  rw [h]
  simp

/-- Witness of C9: deleting `web1` on a backend that does not hold its record. -/
theorem hostDelete_not_found_witness :
    Stub.client.GetRecordA Stub.web1Created.id Stub.fresh.backend =
        ((⟨"", "", 0⟩, some "not found"), []) ∧
    (resourceInfobloxHostDelete Stub.client Stub.web1Created Stub.fresh =
        (.returned (some ("Couldn't find Infoblox A record: " ++ "not found")),
          Stub.web1Created,
          ⟨[], Stub.fresh.calls ++ [Call.GetRecordA Stub.web1Created.id]⟩) ∧
      ∀ ref, Call.RecordADelete ref ∉
        (resourceInfobloxHostDelete Stub.client Stub.web1Created Stub.fresh).2.2.calls.drop
          Stub.fresh.calls.length) :=
  ⟨by decide, hostDelete_not_found Stub.client Stub.web1Created Stub.fresh ⟨"", "", 0⟩
    "not found" [] (by decide)⟩

/-- C10: Read, Update and Delete of the IP resource return nil and leave the resource
data, the backend and the call log as they were. -/
theorem ip_read_update_delete_noop {σ ρ : Type} (client : Client σ ρ) (d : IPData)
    (w : World σ) :
    resourceInfobloxIPRead client d w = (.returned none, d, w) ∧
    resourceInfobloxIPUpdate client d w = (.returned none, d, w) ∧
    resourceInfobloxIPDelete client d w = (.returned none, d, w) :=
  ⟨rfl, rfl, rfl⟩

/-- C8: when the lookup, the allocation and the normalization succeed and give the
list L, IP Create succeeds, the identity is L joined by single spaces, in order, and
the addresses attribute is L. -/
theorem ipCreate_sets_identity {σ ρ : Type} (client : Client σ ρ) (json : Json ρ)
    (d : IPData) (w : World σ) (n : NetworkObject) (rest : List NetworkObject)
    (ref : String) (b1 b2 : σ) (ou : ρ) (data : String) (L : List String)
    (hfind : client.NetworkFind d.cidr w.backend = ((n :: rest, none), b1))
    (href : n.ref = some ref)
    (hnext : client.NextAvailableIP ref d.ip_count d.exclude b1 = ((ou, none), b2))
    (hmarshal : json.Marshal ou = (data, none))
    (hunmarshal : json.Unmarshal data = (⟨L⟩, none)) :
    resourceInfobloxIPCreate client json d w =
      (.returned none, { d with id := strings.Join L " ", addresses := L },
        ⟨b2, w.calls ++ [Call.NetworkFind d.cidr,
          Call.NextAvailableIP ref d.ip_count d.exclude]⟩) := by
  simp [resourceInfobloxIPCreate, hfind, href, hnext, hmarshal, hunmarshal, World.after,
    IPData.SetId, IPData.SetAddresses]

/-- Witness of C8: two addresses from 10.0.0.0/24 with 10.0.0.5 excluded give the
identity "10.0.0.6 10.0.0.7". -/
theorem ipCreate_sets_identity_witness :
    strings.Join ["10.0.0.6", "10.0.0.7"] " " = "10.0.0.6 10.0.0.7" ∧
    resourceInfobloxIPCreate Stub.client Stub.json Stub.twoAddresses Stub.fresh =
      (.returned none,
        { Stub.twoAddresses with
          id := strings.Join ["10.0.0.6", "10.0.0.7"] " ",
          addresses := ["10.0.0.6", "10.0.0.7"] },
        ⟨[], Stub.fresh.calls ++ [Call.NetworkFind Stub.twoAddresses.cidr,
          Call.NextAvailableIP "network/10.0.0.0/24" Stub.twoAddresses.ip_count
            Stub.twoAddresses.exclude]⟩) :=
  ⟨by decide,
    ipCreate_sets_identity Stub.client Stub.json Stub.twoAddresses Stub.fresh
      ⟨some "network/10.0.0.0/24"⟩ [] "network/10.0.0.0/24" [] []
      ["10.0.0.6", "10.0.0.7"] "10.0.0.6,10.0.0.7" ["10.0.0.6", "10.0.0.7"]
      (by decide) (by decide) (by decide) (by decide) (by decide)⟩

/-- C2, as stated, fails: with ip_count = 2 and a response that normalizes to the one
address 10.0.0.6, IP Create returns nil and sets the identity "10.0.0.6". -/
theorem ipCreate_count_mismatch_counterexample :
    Stub.twoAddresses.ip_count = 2 ∧
    (Stub.json.Unmarshal (Stub.json.Marshal (Stub.clientOneLeft.NextAvailableIP
      "network/10.0.0.0/24" 2 ["10.0.0.5"] []).1.1).1).1.IPAddresses = ["10.0.0.6"] ∧
    (resourceInfobloxIPCreate Stub.clientOneLeft Stub.json Stub.twoAddresses Stub.fresh).1 =
      .returned none ∧
    (resourceInfobloxIPCreate Stub.clientOneLeft Stub.json Stub.twoAddresses Stub.fresh).2.1.id =
      "10.0.0.6" := by
  decide

/-- C2, amended: IP Create returns the error e exactly when the network lookup fails
with e, or finds no network (e is then the "Empty response" text), or the allocation
call, the marshalling or the decoding fails with e; the length of the decoded list
plays no part. Whenever it returns an error the resource data, identity included, is
what it was before. -/
theorem ipCreate_error_iff_step_fails {σ ρ : Type} (client : Client σ ρ) (json : Json ρ)
    (d : IPData) (w : World σ) (e : String) :
    ((resourceInfobloxIPCreate client json d w).1 = .returned (some e) ↔
      (client.NetworkFind d.cidr w.backend).1.2 = some e ∨
      ((client.NetworkFind d.cidr w.backend).1.2 = none ∧
        (client.NetworkFind d.cidr w.backend).1.1 = [] ∧
        e = "Empty response from client.Network().find. Is " ++ d.cidr ++
          " a valid network?") ∨
      ∃ n rest ref,
        (client.NetworkFind d.cidr w.backend).1.2 = none ∧
        (client.NetworkFind d.cidr w.backend).1.1 = n :: rest ∧ n.ref = some ref ∧
        ((client.NextAvailableIP ref d.ip_count d.exclude
            (client.NetworkFind d.cidr w.backend).2).1.2 = some e ∨
          ((client.NextAvailableIP ref d.ip_count d.exclude
              (client.NetworkFind d.cidr w.backend).2).1.2 = none ∧
            ((json.Marshal (client.NextAvailableIP ref d.ip_count d.exclude
                (client.NetworkFind d.cidr w.backend).2).1.1).2 = some e ∨
              ((json.Marshal (client.NextAvailableIP ref d.ip_count d.exclude
                  (client.NetworkFind d.cidr w.backend).2).1.1).2 = none ∧
                (json.Unmarshal (json.Marshal (client.NextAvailableIP ref d.ip_count
                  d.exclude (client.NetworkFind d.cidr w.backend).2).1.1).1).2 =
                    some e))))) ∧
    ((resourceInfobloxIPCreate client json d w).1 = .returned (some e) →
      (resourceInfobloxIPCreate client json d w).2.1 = d) := by
  rcases hf : client.NetworkFind d.cidr w.backend with ⟨⟨out, err⟩, b1⟩
  cases err with
  | some e1 => simp [resourceInfobloxIPCreate, hf]
  | none =>
    cases out with
    | nil => simp [resourceInfobloxIPCreate, hf, eq_comm]
    | cons n rest =>
      cases hr : n.ref with
      | none => simp [resourceInfobloxIPCreate, hf, hr]
      | some ref =>
        rcases hn : client.NextAvailableIP ref d.ip_count d.exclude b1 with ⟨⟨ou, err⟩, b2⟩
        cases err with
        | some e2 => simp [resourceInfobloxIPCreate, hf, hr, World.after, hn]
        | none =>
          rcases hm : json.Marshal ou with ⟨data, err⟩
          cases err with
          | some e3 => simp [resourceInfobloxIPCreate, hf, hr, World.after, hn, hm]
          | none =>
            rcases hu : json.Unmarshal data with ⟨res, err⟩
            cases err with
            | some e4 => simp [resourceInfobloxIPCreate, hf, hr, World.after, hn, hm, hu]
            | none =>
              simp [resourceInfobloxIPCreate, hf, hr, World.after, hn, hm, hu,
                IPData.SetAddresses]

/-- The name in the payload of Host Create is name + "." + domain. -/
theorem hostCreateRecord_name (d : HostData) (ipAddress : String) :
    (hostCreateRecord d ipAddress).Get "name" = strings.Join [d.name, d.domain] "." := by
  unfold hostCreateRecord
  split <;> simp [Values.Set, Values.Get, Values.empty, List.filter, List.find?]

/-- Host Read on a record that the backend finds: the write of the address at line 128
panics, after the lookup and before the name is split; the resource data is as it
was. -/
theorem hostRead_found_panics {σ ρ : Type} (client : Client σ ρ) (fw : FieldWriter)
    (d : HostData) (w : World σ) (rec : RecordAObject) (b : σ)
    (hget : client.GetRecordA d.id w.backend = ((rec, none), b)) :
    resourceInfobloxHostRead client fw d w =
      (.panicked, d, ⟨b, w.calls ++ [Call.GetRecordA d.id]⟩) := by
  simp [resourceInfobloxHostRead, hget, World.after, HostData.SetAddress]

/-- C3 fails on the code: Host Create builds the record name "web1.example.com" for the
name "web1" and the domain "example.com"; on the backend that stores that record the
lookup of Host Read succeeds, and Host Read then panics at line 128 instead of
returning, so that name and domain are not set: they keep the values "stale" and
"stale.test" which the resource data had. -/
theorem hostRead_panics_on_stored_record :
    '.' ∉ Stub.web1.name.data ∧
    (hostCreateRecord Stub.web1 "10.0.0.6").Get "name" = "web1.example.com" ∧
    (Stub.client.GetRecordA Stub.web1Stale.id Stub.web1Stored.backend).1 =
      (⟨"10.0.0.6", "web1.example.com", 3600⟩, none) ∧
    (resourceInfobloxHostRead Stub.client Stub.fieldWriter Stub.web1Stale Stub.web1Stored).1 =
      .panicked ∧
    (resourceInfobloxHostRead Stub.client Stub.fieldWriter Stub.web1Stale
      Stub.web1Stored).2.1.name = "stale" ∧
    (resourceInfobloxHostRead Stub.client Stub.fieldWriter Stub.web1Stale
      Stub.web1Stored).2.1.domain = "stale.test" ∧
    Stub.web1.name = "web1" ∧ Stub.web1.domain = "example.com" := by
  decide

/-- C6, as stated, fails: on a backend that accepts the new record but does not find
it afterwards, Host Create returns an error and the identity is assigned; on a backend
that moves the record to a new reference and does not find it afterwards, Host Update
returns an error and the identity has changed. -/
theorem host_error_after_adopting_id_counterexample :
    Stub.web1.id = "" ∧
    (resourceInfobloxHostCreate Stub.clientLosesRecord Stub.json
      (Stub.resourceInfobloxRecordRead Stub.clientLosesRecord) Stub.web1 Stub.fresh).1 =
      .returned (some "Couldn't find Infoblox A record: not found") ∧
    (resourceInfobloxHostCreate Stub.clientLosesRecord Stub.json
      (Stub.resourceInfobloxRecordRead Stub.clientLosesRecord) Stub.web1 Stub.fresh).2.1.id =
      "record:a/web1.example.com" ∧
    Stub.web1Created.id = "record:a/web1.example.com" ∧
    (resourceInfobloxHostUpdate Stub.clientLosesUpdate
      (Stub.resourceInfobloxRecordRead Stub.clientLosesUpdate) Stub.web1Created
      Stub.web1Stored).1 = .returned (some "Couldn't find Infoblox A record: not found") ∧
    (resourceInfobloxHostUpdate Stub.clientLosesUpdate
      (Stub.resourceInfobloxRecordRead Stub.clientLosesUpdate) Stub.web1Created
      Stub.web1Stored).2.1.id = "record:a/web1.example.com/v2" := by
  decide

/-- C6, amended: a run of Host Create either leaves the resource data, identity
included, as it was, or it is a successful address resolution and a successful backend
create followed by the final read on the data with the returned ID, whose result it
returns. The same holds of Host Update with the record lookup and the backend update.
So every error that is not the error of the final read leaves the identity as it
was. -/
theorem host_identity_changes_only_before_final_read {σ ρ : Type} (client : Client σ ρ)
    (json : Json ρ) (recordRead : Operation σ HostData) (d : HostData) (w : World σ) :
    ((resourceInfobloxHostCreate client json recordRead d w).2.1 = d ∨
      ∃ ipAddress w1 recID b,
        findIP client json d.cidr d.exclude w = (.returned (ipAddress, none), w1) ∧
        client.RecordACreate (hostCreateRecord d ipAddress) ["ttl", "ipv4addr", "name"]
          w1.backend = ((recID, none), b) ∧
        resourceInfobloxHostCreate client json recordRead d w =
          recordRead (d.SetId recID)
            (w1.after (Call.RecordACreate (hostCreateRecord d ipAddress)
              ["ttl", "ipv4addr", "name"]) b)) ∧
    ((resourceInfobloxHostUpdate client recordRead d w).2.1 = d ∨
      ∃ rec b1 recID b2,
        client.GetRecordA d.id w.backend = ((rec, none), b1) ∧
        client.RecordAUpdate d.id (hostUpdateRecord d) ["ttl", "ipv4addr", "name"] b1 =
          ((recID, none), b2) ∧
        resourceInfobloxHostUpdate client recordRead d w =
          recordRead (d.SetId recID)
            ⟨b2, w.calls ++ [Call.GetRecordA d.id,
              Call.RecordAUpdate d.id (hostUpdateRecord d) ["ttl", "ipv4addr", "name"]]⟩) := by
  constructor
  · by_cases hc : d.cidr = ""
    · left; simp [resourceInfobloxHostCreate, hc]
    by_cases hn : d.name = ""
    · left; simp [resourceInfobloxHostCreate, hc, hn]
    by_cases hd : d.domain = ""
    · left; simp [resourceInfobloxHostCreate, hc, hn, hd]
    rcases hf : findIP client json d.cidr d.exclude w with ⟨o, w1⟩
    cases o with
    | panicked => left; simp [resourceInfobloxHostCreate, hc, hn, hd, hf]
    | returned r =>
      rcases r with ⟨ipAddress, err⟩
      cases err with
      | some e => left; simp [resourceInfobloxHostCreate, hc, hn, hd, hf]
      | none =>
        rcases hk : client.RecordACreate (hostCreateRecord d ipAddress)
          ["ttl", "ipv4addr", "name"] w1.backend with ⟨⟨recID, err⟩, b⟩
        cases err with
        | some e => left; simp [resourceInfobloxHostCreate, hc, hn, hd, hf, hk]
        | none =>
          right
          refine ⟨ipAddress, w1, recID, b, rfl, hk, ?_⟩
          simp [resourceInfobloxHostCreate, hc, hn, hd, hf, hk]
  · by_cases hn : d.name = ""
    · left; simp [resourceInfobloxHostUpdate, hn]
    by_cases hd : d.domain = ""
    · left; simp [resourceInfobloxHostUpdate, hn, hd]
    rcases hg : client.GetRecordA d.id w.backend with ⟨⟨rec, err⟩, b1⟩
    cases err with
    | some e => left; simp [resourceInfobloxHostUpdate, hn, hd, hg]
    | none =>
      rcases hk : client.RecordAUpdate d.id (hostUpdateRecord d) ["ttl", "ipv4addr", "name"]
        b1 with ⟨⟨recID, err⟩, b2⟩
      cases err with
      | some e => left; simp [resourceInfobloxHostUpdate, hn, hd, hg, World.after, hk]
      | none =>
        right
        refine ⟨rec, b1, recID, b2, rfl, hk, ?_⟩
        simp [resourceInfobloxHostUpdate, hn, hd, hg, World.after, hk]

/-- What Host Delete returns when the record is found and the backend delete fails:
the text of the delete error does not appear. -/
theorem hostDelete_delete_error {σ ρ : Type} (client : Client σ ρ) (d : HostData)
    (w : World σ) (rec : RecordAObject) (b1 b2 : σ) (e : String)
    (hget : client.GetRecordA d.id w.backend = ((rec, none), b1))
    (hdel : client.RecordADelete d.id b1 = (some e, b2)) :
    (resourceInfobloxHostDelete client d w).1 =
      .returned (some "Error deleting Infoblox A Record: %!s(<nil>)") := by
  simp [resourceInfobloxHostDelete, hget, World.after, hdel, fmt.verb_s]

/-- What Host Update returns when the record is found and the backend update fails:
the text of the update error does not appear. -/
theorem hostUpdate_update_error {σ ρ : Type} (client : Client σ ρ)
    (recordRead : Operation σ HostData) (d : HostData) (w : World σ) (rec : RecordAObject)
    (b1 b2 : σ) (recID e : String)
    (hname : d.name ≠ "") (hdomain : d.domain ≠ "")
    (hget : client.GetRecordA d.id w.backend = ((rec, none), b1))
    (hupd : client.RecordAUpdate d.id (hostUpdateRecord d) ["ttl", "ipv4addr", "name"] b1 =
      ((recID, some e), b2)) :
    (resourceInfobloxHostUpdate client recordRead d w).1 =
      .returned (some "Failed to update Infblox Record: %!s(<nil>)") := by
  simp [resourceInfobloxHostUpdate, hname, hdomain, hget, World.after, hupd, fmt.verb_s]

/-- C7 fails on the code: with the record of web1 present and a backend whose delete,
respectively update, fails with the error "boom", Host Delete returns
"Error deleting Infoblox A Record: %!s(<nil>)" and Host Update returns
"Failed to update Infblox Record: %!s(<nil>)"; neither message contains "boom". -/
theorem host_backend_error_text_lost :
    (Stub.clientDeleteFails.GetRecordA Stub.web1Created.id Stub.web1Stored.backend).1.2 = none ∧
    (Stub.clientDeleteFails.RecordADelete Stub.web1Created.id Stub.web1Stored.backend).1 =
      some "boom" ∧
    (resourceInfobloxHostDelete Stub.clientDeleteFails Stub.web1Created Stub.web1Stored).1 =
      .returned (some "Error deleting Infoblox A Record: %!s(<nil>)") ∧
    (resourceInfobloxHostDelete Stub.clientDeleteFails Stub.web1Created Stub.web1Stored).1 ≠
      .returned (some ("Error deleting Infoblox A Record: " ++ "boom")) ∧
    (Stub.clientUpdateFails.RecordAUpdate Stub.web1Created.id
      (hostUpdateRecord Stub.web1Created) ["ttl", "ipv4addr", "name"]
      Stub.web1Stored.backend).1.2 = some "boom" ∧
    (resourceInfobloxHostUpdate Stub.clientUpdateFails
      (Stub.resourceInfobloxRecordRead Stub.clientUpdateFails) Stub.web1Created
      Stub.web1Stored).1 = .returned (some "Failed to update Infblox Record: %!s(<nil>)") ∧
    (resourceInfobloxHostUpdate Stub.clientUpdateFails
      (Stub.resourceInfobloxRecordRead Stub.clientUpdateFails) Stub.web1Created
      Stub.web1Stored).1 ≠ .returned (some ("Failed to update Infblox Record: " ++ "boom")) := by
  decide

/-- C4: for a name without "." and any domain, the split that Host Read performs
(lines 129-131) on the record name that Host Create builds (line 94), name + "." +
domain, has the name as first label, the remaining labels joined with "." give the
domain, and these are the values written to `name` and `domain`. -/
theorem hostRead_split_roundtrip (declared : HostData) (ipAddress : String)
    (rec : RecordAObject) (d : HostData)
    (hname : '.' ∉ declared.name.data)
    (hstored : rec.Name = (hostCreateRecord declared ipAddress).Get "name") :
    rec.Name = strings.Join [declared.name, declared.domain] "." ∧
    (∃ labels : List String,
      strings.Split rec.Name '.' = declared.name :: labels ∧
      strings.Join labels "." = declared.domain) ∧
    hostReadNameDomain rec d =
      .returned { d with name := declared.name, domain := declared.domain } := by
  have hrec : rec.Name = strings.Join [declared.name, declared.domain] "." := by
    rw [hstored, hostCreateRecord_name]
  have hsplit : strings.Split rec.Name '.' =
      declared.name :: strings.Split declared.domain '.' := by
    rw [hrec, strings.Split_Join_pair _ _ hname]
  refine ⟨hrec, ⟨strings.Split declared.domain '.', hsplit, strings.Join_Split _⟩, ?_⟩
  simp [hostReadNameDomain, hsplit, strings.Join_Split]

/-- Witness of C4: the record name of web1.example.com, split into resource data whose
name and domain are out of date. -/
theorem hostRead_split_roundtrip_witness :
    '.' ∉ Stub.web1.name.data ∧
    (⟨"10.0.0.6", "web1.example.com", 3600⟩ : RecordAObject).Name =
      (hostCreateRecord Stub.web1 "10.0.0.6").Get "name" ∧
    (⟨"10.0.0.6", "web1.example.com", 3600⟩ : RecordAObject).Name =
      strings.Join [Stub.web1.name, Stub.web1.domain] "." ∧
    (∃ labels : List String,
      strings.Split (⟨"10.0.0.6", "web1.example.com", 3600⟩ : RecordAObject).Name '.' =
        Stub.web1.name :: labels ∧
      strings.Join labels "." = Stub.web1.domain) ∧
    hostReadNameDomain ⟨"10.0.0.6", "web1.example.com", 3600⟩ Stub.web1Stale =
      .returned { Stub.web1Stale with name := Stub.web1.name, domain := Stub.web1.domain } :=
  ⟨by decide, by decide,
    hostRead_split_roundtrip Stub.web1 "10.0.0.6" ⟨"10.0.0.6", "web1.example.com", 3600⟩
      Stub.web1Stale (by decide) (by decide)⟩

end Infoblox
